import Mathlib

/-
Verification of the image hosting backend (Python source under `src/`).

The development shallowly embeds the parts of the code that the claims are
about:

* `utils.infer_ext_from_format` and the `image_format` constants it imports;
* `config.MAX_FILE_SIZE` and `config.ALLOWED_EXTENSIONS`;
* `ImageService.validate_bytes`, `ImageService.save_image`,
  `ImageService.handle` (the ingestion pipeline),
  `ImageService.get_images_page` and `ImageService.handle_delete_image`
  from `services/image_service.py`;
* the status mapping done by `UploadController._save_via_service` /
  `handle_post` and `DeleteImageController.delete_image`.

External effects (PIL decoding, the PostgreSQL connection and statements,
the filesystem) are modelled by explicit state passing plus a small
"environment" datatype per operation that selects which external step, if
any, raises.  Each constructor corresponds to one failure point that the
Python code can encounter; the translation of each branch follows the
`try`/`except`/`finally` structure of the source line by line.  The
filesystem is modelled as the list of stored file names (the encoded pixel
data is irrelevant to every claim), the `images` table as a list of rows.
-/

namespace ImageHosting

/-- Model of Python's `str.upper()` as used by the source on format tags:
uppercase every character (`Char.toUpper` is ASCII-only, which agrees with
Python on the ASCII format tags the program compares against). -/
def pyUpper (s : String) : String := String.mk (s.data.map Char.toUpper)

/-- `config.MAX_FILE_SIZE = 10 * 1024 * 1024` (10 MiB). -/
def MAX_FILE_SIZE : Nat := 10 * 1024 * 1024

/-- `config.ALLOWED_EXTENSIONS = ['JPEG', 'PNG', 'GIF']`. -/
def ALLOWED_EXTENSIONS : List String := ["JPEG", "PNG", "GIF"]

namespace image_format

/-- Modelled from the spec: the `image_format` module imported by `utils.py`
is not part of the source tree; the spec's glossary fixes the canonical
format tags as the fixed strings `JPEG`, `PNG`, `GIF`, and
`image_service.py` itself defines `JPEG = 'JPEG'`, `PNG = 'PNG'`. -/
def JPEG : String := "JPEG"

/-- Modelled from the spec: canonical tag for PNG (see `JPEG` above). -/
def PNG : String := "PNG"

/-- Modelled from the spec: canonical tag for GIF (see `JPEG` above). -/
def GIF : String := "GIF"

end image_format

/-- `utils.infer_ext_from_format`: `fmt = (pillow_format or '').upper()`,
then compare against the `image_format` constants, falling back to
`'.img'`.  `none` models a Python `None` argument (the `or ''` branch). -/
def infer_ext_from_format (pillow_format : Option String) : String :=
  let fmt := pyUpper (pillow_format.getD "")
  if fmt = image_format.JPEG then ".jpg"
  else if fmt = image_format.PNG then ".png"
  else if fmt = image_format.GIF then ".gif"
  else ".img"

/-- The spec's closed mapping of §4.1 (`JPEG→.jpg`, `PNG→.png`, `GIF→.gif`,
anything else to the generic fallback), written from the spec's words so
that the code-side `infer_ext_from_format` can be compared against it. -/
def canonicalExtSpec : String → String
  | "JPEG" => ".jpg"
  | "PNG" => ".png"
  | "GIF" => ".gif"
  | _ => ".img"

/-- A decoded PIL image as far as the service observes it: its `format`
attribute (possibly `None`), its `mode`, and the length that
`sys.getsizeof(image.tobytes())` reports when metadata is recorded. -/
structure PILImage where
  format : Option String
  mode : String
  tobytes_size : Nat
deriving DecidableEq, Repr

/-- What PIL does on a given byte buffer: `Image.open`/`verify` raises
`UnidentifiedImageError`, raises some other exception (corrupt data), the
re-open raises, or both passes succeed and yield a decoded image. -/
inductive DecodeResult where
  | unidentified : DecodeResult
  | corrupt : DecodeResult
  | reopenFail : DecodeResult
  | decoded : PILImage → DecodeResult
deriving DecidableEq, Repr

/-- An uploaded byte buffer: its length together with how PIL decodes it. -/
structure Bytes where
  len : Nat
  decode : DecodeResult
deriving DecidableEq, Repr

/-- The typed rendering of the `ValueError` messages raised by
`validate_bytes` plus the (non-`ValueError`) exception a failing
`image.save` raises out of `save_image`. -/
inductive SvcError where
  | payloadTooLarge : SvcError
  | invalidImage : SvcError
  | corruptImage : SvcError
  | reopenFailed : SvcError
  | unsupportedFormat : String → SvcError
  | storageWriteFailure : SvcError
deriving DecidableEq, Repr

/-- `ImageService.validate_bytes`: size gate, verify pass, re-open, format
membership check, in source order; each failure raises (modelled as
`Except.error`). -/
def validate_bytes (file_bytes : Bytes) : Except SvcError PILImage :=
  if file_bytes.len > MAX_FILE_SIZE then
    .error .payloadTooLarge
  else
    match file_bytes.decode with
    | .unidentified => .error .invalidImage
    | .corrupt => .error .corruptImage
    | .reopenFail => .error .reopenFailed
    | .decoded image =>
        let img_format := pyUpper (image.format.getD "")
        if img_format ∈ ALLOWED_EXTENSIONS then .ok image
        else .error (.unsupportedFormat img_format)

/-- One row of the `images` table. -/
structure Row where
  id : Nat
  filename : String
  original_name : String
  size : Nat
  upload_time : Nat
  file_type : String
deriving DecidableEq, Repr

/-- The two stores: the upload directory (file names only) and the
`images` table. -/
structure FsDb where
  files : List String
  table : List Row
deriving DecidableEq, Repr

/-- Which external step fails during `ImageService.save_image`:
`image.save` raises (`diskFail`), `get_connection()` returns `None`
(`dbConnNone`), the INSERT/commit raises (`dbInsertFail`), or everything
succeeds (`dbOk`). -/
inductive SaveEnv where
  | diskFail : SaveEnv
  | dbConnNone : SaveEnv
  | dbInsertFail : SaveEnv
  | dbOk : SaveEnv
deriving DecidableEq, Repr

/-- Result of `save_image`/`handle`: the returned pair or the propagated
exception, the resulting stores, and whether the function returned with
the acquired DB connection still open. -/
structure SaveOutcome where
  result : Except SvcError (String × String)
  state : FsDb
  connLeaked : Bool
deriving Repr

/-- `ImageService.save_image`, given the validated image, the random token
(`uuid.uuid4().hex`) and the id/timestamp the store would assign.  The
source computes `img_format = (image.format or '').upper()`,
`ext = infer_ext_from_format(img_format)`,
`unique_name = token + ext`, writes the file, then inside a nested `try`
inserts the metadata row; an exception from the INSERT (or a `None`
connection) is caught and only logged, and the function still returns
`(unique_name, '/images/' + unique_name)`.  On the INSERT exception the
`except` handler never calls `conn.close()`, so the connection leaks. -/
def save_image (env : SaveEnv) (σ : FsDb) (image : PILImage)
    (original_filename token : String) (newId newTime : Nat) : SaveOutcome :=
  let img_format := pyUpper (image.format.getD "")
  let ext := infer_ext_from_format (some img_format)
  let unique_name := token ++ ext
  match env with
  | .diskFail =>
      { result := .error .storageWriteFailure, state := σ, connLeaked := false }
  | .dbConnNone =>
      { result := .ok (unique_name, "/images/" ++ unique_name),
        state := { σ with files := σ.files ++ [unique_name] },
        connLeaked := false }
  | .dbInsertFail =>
      { result := .ok (unique_name, "/images/" ++ unique_name),
        state := { σ with files := σ.files ++ [unique_name] },
        connLeaked := true }
  | .dbOk =>
      { result := .ok (unique_name, "/images/" ++ unique_name),
        state := { files := σ.files ++ [unique_name],
                   table := { id := newId, filename := unique_name,
                              original_name := original_filename,
                              size := image.tobytes_size,
                              upload_time := newTime,
                              file_type := img_format } :: σ.table },
        connLeaked := false }

/-- `ImageService.handle`: validate, then save. -/
def handle (env : SaveEnv) (σ : FsDb) (file_bytes : Bytes)
    (original_filename token : String) (newId newTime : Nat) : SaveOutcome :=
  match validate_bytes file_bytes with
  | .error e => { result := .error e, state := σ, connLeaked := false }
  | .ok image => save_image env σ image original_filename token newId newTime

/-- The HTTP status `UploadController` sends for an upload:
`handle_post` answers 200 on a returned pair, `_save_via_service` maps
every `ValueError` from validation to 400 and any other exception
(e.g. a failing `image.save`) to 500. -/
def upload_status (env : SaveEnv) (σ : FsDb) (file_bytes : Bytes)
    (original_filename token : String) (newId newTime : Nat) : Nat :=
  match (handle env σ file_bytes original_filename token newId newTime).result with
  | .ok _ => 200
  | .error .storageWriteFailure => 500
  | .error _ => 400

/-- Which external step fails during `ImageService.handle_delete_image`:
`get_connection()` returns `None`, the SELECT raises, the DELETE raises,
`os.remove` raises (caught and only logged), `conn.commit()` raises, or
everything succeeds. -/
inductive DeleteEnv where
  | connNone : DeleteEnv
  | selectFail : DeleteEnv
  | deleteFail : DeleteEnv
  | removeFileFail : DeleteEnv
  | commitFail : DeleteEnv
  | dbOk : DeleteEnv
deriving DecidableEq, Repr

/-- Result of `handle_delete_image`: the returned bool, the resulting
stores, and whether a connection was left open (the `finally` block always
closes cursor and connection, so it never is). -/
structure DeleteOutcome where
  deleted : Bool
  state : FsDb
  connLeaked : Bool
deriving DecidableEq, Repr

/-- `os.remove` guarded by `os.path.exists` as in the source: remove the
name if present, otherwise skip. -/
def removeFile (files : List String) (name : String) : List String :=
  if name ∈ files then files.erase name else files

/-- `ImageService.handle_delete_image`.  The source returns a single bool:
`False` when the connection is `None`, when the SELECT finds no row
(after a rollback), and from the `except` handler when any statement
raises (after a rollback); `True` only when the row was found, the DELETE
and the commit succeeded.  A failing `os.remove` is caught and only
logged, so it does not affect the returned value; a failing commit rolls
the row deletion back but the file removal already happened.  The
`finally` block closes cursor and connection on every path. -/
def handle_delete_image (env : DeleteEnv) (σ : FsDb) (image_id : Nat) : DeleteOutcome :=
  match env with
  | .connNone => { deleted := false, state := σ, connLeaked := false }
  | .selectFail => { deleted := false, state := σ, connLeaked := false }
  | _ =>
    match σ.table.find? (fun r => r.id == image_id) with
    | none => { deleted := false, state := σ, connLeaked := false }
    | some row =>
      match env with
      | .deleteFail => { deleted := false, state := σ, connLeaked := false }
      | .removeFileFail =>
          { deleted := true,
            state := { files := σ.files,
                       table := σ.table.filter (fun r => r.id != image_id) },
            connLeaked := false }
      | .commitFail =>
          { deleted := false,
            state := { files := removeFile σ.files row.filename,
                       table := σ.table },
            connLeaked := false }
      | _ =>
          { deleted := true,
            state := { files := removeFile σ.files row.filename,
                       table := σ.table.filter (fun r => r.id != image_id) },
            connLeaked := false }

/-- The HTTP status `DeleteImageController.delete_image` sends: 404 with
message "Not found" when the service returns `False`, 200 when it returns
`True` (the 500 branch fires only for exceptions escaping the service,
which its `except`/`finally` structure prevents). -/
def delete_image_status (env : DeleteEnv) (σ : FsDb) (image_id : Nat) : Nat :=
  if (handle_delete_image env σ image_id).deleted then 200 else 404

/-- Which external step fails during `ImageService.get_images_page`:
`get_connection()` returns `None`, the COUNT raises (it runs before the
`try`, so the exception propagates and the connection is never closed),
the page SELECT raises (inside `try`/`finally`, so the connection is
closed and the exception re-raised), or everything succeeds. -/
inductive PageEnv where
  | connNone : PageEnv
  | countFail : PageEnv
  | selectFail : PageEnv
  | dbOk : PageEnv
deriving DecidableEq, Repr

/-- The pagination dictionary built by `get_images_page`. -/
structure Pagination where
  current_page : Int
  per_page : Nat
  total : Nat
  total_pages : Nat
  has_prev : Bool
  has_next : Bool
deriving DecidableEq, Repr

/-- One element of the `images` list built by `get_images_page` (the row
fields plus the derived `url`; the `upload_time` serialisation to ISO text
is injective and not modelled). -/
structure ImageItem where
  id : Nat
  filename : String
  original_name : String
  size : Nat
  upload_time : Nat
  file_type : String
  url : String
deriving DecidableEq, Repr

/-- The dictionary `get_images_page` builds from a fetched row, with
`url = '/images/' + filename`. -/
def rowToItem (r : Row) : ImageItem :=
  { id := r.id, filename := r.filename, original_name := r.original_name,
    size := r.size, upload_time := r.upload_time, file_type := r.file_type,
    url := "/images/" ++ r.filename }

/-- The dictionary returned by `get_images_page`. -/
structure PageResult where
  images : List ImageItem
  pagination : Pagination
deriving DecidableEq, Repr

/-- Result of `get_images_page`: the returned dictionary or a propagated
exception, and whether the function exited with the connection open. -/
structure PageOutcome where
  result : Except Unit PageResult
  connLeaked : Bool
deriving Repr

/-- `math.ceil(total / per_page)` for naturals as the integer ceiling
division the Python expression computes. -/
def ceilDiv (a b : Nat) : Nat := (a + b - 1) / b

/-- SQL `ORDER BY upload_time DESC`: sort the rows by `upload_time`
descending (stable; ties keep table order, which PostgreSQL leaves
unspecified). -/
def byTimeDesc (a b : Row) : Prop := b.upload_time ≤ a.upload_time

instance : DecidableRel byTimeDesc :=
  fun a b => inferInstanceAs (Decidable (b.upload_time ≤ a.upload_time))

instance : IsTotal Row byTimeDesc :=
  ⟨fun a b => le_total b.upload_time a.upload_time⟩

instance : IsTrans Row byTimeDesc :=
  ⟨fun _ _ _ hab hbc => le_trans hbc hab⟩

/-- The `images` table as the page SELECT orders it. -/
def sortByTimeDesc (table : List Row) : List Row :=
  List.insertionSort byTimeDesc table

/-- `ImageService.get_images_page`.  The source clamps
`page = max(1, int(page))`, computes `offset = (page - 1) * per_page`,
returns the empty-result dictionary when `get_connection()` is `None`,
runs `SELECT COUNT(*)` before the `try` block (so a raising COUNT
propagates with the connection still open), then fetches
`ORDER BY upload_time DESC LIMIT per_page OFFSET offset` inside
`try`/`finally`, and builds `total_pages = max(1, ceil(total / per_page))
if per_page else 1`, `has_prev = page > 1`, `has_next = page <
total_pages`. -/
def get_images_page (env : PageEnv) (table : List Row) (page : Int)
    (per_page : Nat) : PageOutcome :=
  let pageC := max 1 page
  let offset := (pageC - 1).toNat * per_page
  match env with
  | .connNone =>
      { result := .ok
          { images := [],
            pagination :=
              { current_page := pageC, per_page := per_page, total := 0,
                total_pages := 1, has_prev := false, has_next := false } },
        connLeaked := false }
  | .countFail => { result := .error (), connLeaked := true }
  | .selectFail => { result := .error (), connLeaked := false }
  | .dbOk =>
      let total := table.length
      let rows := ((sortByTimeDesc table).drop offset).take per_page
      let total_pages := if per_page ≠ 0 then max 1 (ceilDiv total per_page) else 1
      { result := .ok
          { images := rows.map rowToItem,
            pagination :=
              { current_page := pageC, per_page := per_page, total := total,
                total_pages := total_pages,
                has_prev := decide (pageC > 1),
                has_next := decide (pageC < (total_pages : Int)) } },
        connLeaked := false }

/-- What the spec (§4.4 `fetchPage`, §4.5 listing contract) requires of a
successful page fetch, stated with the spec's own formulas: clamped
current page, rows of the descending-ordered table sliced at
`(page-1)*per_page` and capped at `per_page`, `total` the row count,
`total_pages = max(1, ceil(total / per_page))` as a rational ceiling,
`has_prev = page > 1`, `has_next = page < total_pages`, the slice length
`min per_page (total - offset)`, the slice sorted by `upload_time`
descending, and an empty (not failing) page when the offset reaches the
row count. -/
def pageFetchContract (table : List Row) (page : Int) (per_page : Nat) : Prop :=
  let clamped := max 1 page
  let offset := (clamped - 1).toNat * per_page
  let tp := max 1 ⌈(table.length : ℚ) / (per_page : ℚ)⌉₊
  let items := (((sortByTimeDesc table).drop offset).take per_page).map rowToItem
  (get_images_page .dbOk table page per_page).result = .ok
    { images := items,
      pagination :=
        { current_page := clamped, per_page := per_page, total := table.length,
          total_pages := tp,
          has_prev := decide (clamped > 1),
          has_next := decide (clamped < (tp : Int)) } }
  ∧ items.length = min per_page (table.length - offset)
  ∧ List.Sorted (fun a b : ImageItem => b.upload_time ≤ a.upload_time) items
  ∧ (table.length ≤ offset → items = [])

/-- Sample image with format tag `JPEG`. -/
def imgJPEG : PILImage := { format := some "JPEG", mode := "RGB", tobytes_size := 1000 }

/-- Sample image whose format attribute is lowercase `gif`. -/
def imgGIF : PILImage := { format := some "gif", mode := "P", tobytes_size := 800 }

/-- Sample byte buffer decoding to `imgJPEG`. -/
def bytesJPEG : Bytes := { len := 4, decode := .decoded imgJPEG }

/-- Empty stores. -/
def emptyState : FsDb := { files := [], table := [] }

/-- Sample table row with id 1 and file `a.jpg`. -/
def rowA : Row :=
  { id := 1, filename := "a.jpg", original_name := "orig.jpg", size := 5,
    upload_time := 10, file_type := "JPEG" }

/-- Stores holding `rowA` and its file. -/
def stateWithRowA : FsDb := { files := ["a.jpg"], table := [rowA] }

/-- Stores holding `rowA` but with its file missing from disk. -/
def stateRowNoFile : FsDb := { files := [], table := [rowA] }

/-- A table of 15 rows (ids 1..15, increasing upload times). -/
def table15 : List Row :=
  (List.range 15).map (fun i =>
    { id := i + 1, filename := toString (i + 1) ++ ".jpg",
      original_name := "o.jpg", size := 1, upload_time := i,
      file_type := "JPEG" })

end ImageHosting

namespace ImageHosting

/-! ### Helper lemmas -/

theorem char_ofNat_toNat (n : Nat) (h : n.isValidChar) : (Char.ofNat n).toNat = n := by
  unfold Char.ofNat
  rw [dif_pos h]
  rfl

theorem char_toUpper_idem (c : Char) : c.toUpper.toUpper = c.toUpper := by
  unfold Char.toUpper
  by_cases h : c.toNat ≥ 97 ∧ c.toNat ≤ 122
  · rw [if_pos h]
    have hv : (c.toNat - 32).isValidChar := by
      left
      omega
    rw [char_ofNat_toNat _ hv, if_neg (by omega)]
  · rw [if_neg h, if_neg h]

theorem pyUpper_idem (s : String) : pyUpper (pyUpper s) = pyUpper s := by
  simp only [pyUpper, List.map_map]
  congr 1
  refine List.map_congr_left (fun a _ => ?_)
  simp only [Function.comp_apply, char_toUpper_idem]

theorem ceilDiv_eq_natCeil (a b : Nat) (hb : 0 < b) :
    ceilDiv a b = ⌈(a : ℚ) / (b : ℚ)⌉₊ := by
  have hbq : (0 : ℚ) < (b : ℚ) := by exact_mod_cast hb
  have hrw : ceilDiv a b = a ⌈/⌉ b := (Nat.ceilDiv_eq_add_pred_div a b).symm
  rw [hrw]
  apply le_antisymm
  · rw [ceilDiv_le_iff_le_mul hb]
    have h1 : (a : ℚ) / (b : ℚ) ≤ (⌈(a : ℚ) / (b : ℚ)⌉₊ : ℚ) := Nat.le_ceil _
    have h2 : (a : ℚ) ≤ (⌈(a : ℚ) / (b : ℚ)⌉₊ : ℚ) * (b : ℚ) := (div_le_iff₀ hbq).mp h1
    have h3 : (a : ℚ) ≤ (b : ℚ) * (⌈(a : ℚ) / (b : ℚ)⌉₊ : ℚ) := by linarith
    exact_mod_cast h3
  · rw [Nat.ceil_le, div_le_iff₀ hbq]
    have h3 : a ≤ b • (a ⌈/⌉ b) := le_smul_ceilDiv hb
    rw [smul_eq_mul] at h3
    have h4 : (a : ℚ) ≤ (b : ℚ) * (((a ⌈/⌉ b : Nat)) : ℚ) := by exact_mod_cast h3
    linarith

theorem find_id_filter_eq_none (table : List Row) (idn : Nat) :
    (table.filter (fun r => r.id != idn)).find? (fun r => r.id == idn) = none := by
  rw [List.find?_eq_none]
  intro x hx
  have hmem := List.mem_filter.mp hx
  simpa using hmem.2

theorem handle_delete_miss (env : DeleteEnv) (σ : FsDb) (idn : Nat)
    (h : σ.table.find? (fun r => r.id == idn) = none) :
    handle_delete_image env σ idn = { deleted := false, state := σ, connLeaked := false } := by
  cases env <;> simp [handle_delete_image, h]

theorem length_sortByTimeDesc (t : List Row) : (sortByTimeDesc t).length = t.length :=
  (List.perm_insertionSort byTimeDesc t).length_eq

theorem sorted_sortByTimeDesc (t : List Row) : List.Sorted byTimeDesc (sortByTimeDesc t) :=
  List.sorted_insertionSort byTimeDesc t

end ImageHosting

namespace ImageHosting

/-! ### Claim theorems -/

/-- Claim C1, counterexample: with a validated JPEG image already written to
disk and an INSERT that raises (`SaveEnv.dbInsertFail`), `save_image` does
NOT signal a persistence failure to its caller — it returns the success
pair `(unique_name, url)`, and the upload controller answers 200. -/
theorem save_image_insert_failure_returns_success_cex :
    (save_image .dbInsertFail emptyState imgJPEG "orig.jpg" "tok" 1 0).result
      = .ok ("tok.jpg", "/images/tok.jpg")
    ∧ upload_status .dbInsertFail emptyState bytesJPEG "orig.jpg" "tok" 1 0 = 200 :=
  ⟨rfl, rfl⟩

/-- Claim C1, amended: for every validated image and every failing insert
(INSERT raising, or the connection being `None`), `save_image` catches and
only logs the failure and still returns the success pair
`(unique_name, '/images/' + unique_name)`; the table is left without the
new row while the file was written (an orphan file), so no persistence
failure ever reaches the caller. -/
theorem save_image_swallows_persistence_failure (σ : FsDb) (image : PILImage)
    (orig token : String) (i t : Nat) :
    (save_image .dbInsertFail σ image orig token i t).result
        = .ok (token ++ infer_ext_from_format (some (pyUpper (image.format.getD ""))),
               "/images/" ++ (token ++ infer_ext_from_format (some (pyUpper (image.format.getD "")))))
    ∧ (save_image .dbInsertFail σ image orig token i t).state.table = σ.table
    ∧ (save_image .dbInsertFail σ image orig token i t).state.files
        = σ.files ++ [token ++ infer_ext_from_format (some (pyUpper (image.format.getD "")))]
    ∧ (save_image .dbConnNone σ image orig token i t).result
        = .ok (token ++ infer_ext_from_format (some (pyUpper (image.format.getD ""))),
               "/images/" ++ (token ++ infer_ext_from_format (some (pyUpper (image.format.getD "")))))
    ∧ (save_image .dbConnNone σ image orig token i t).state.table = σ.table :=
  ⟨rfl, rfl, rfl, rfl, rfl⟩

/-- Claim C2, counterexample: a database exception during the DELETE of an
existing row (`stateWithRowA` holds row id 1) yields the same observable
outcome as a genuine miss — `handle_delete_image` returns `False` in both
cases and `DeleteImageController` answers 404 "Not found" in both cases;
the claimed `DeletionFailed`/`NotFound` distinction does not exist. -/
theorem handle_delete_db_exception_notfound_cex :
    (handle_delete_image .deleteFail stateWithRowA 1).deleted = false
    ∧ delete_image_status .deleteFail stateWithRowA 1 = 404
    ∧ (handle_delete_image .dbOk emptyState 1).deleted = false
    ∧ delete_image_status .dbOk emptyState 1 = 404 :=
  ⟨rfl, rfl, rfl, rfl⟩

/-- Claim C2, amended: the delete operation returns a single bool, so only
`Deleted` (`True`) is distinguished; both a missing row and a database
exception during the delete of an existing row produce `False`
(with the state rolled back), which the controller surfaces as the same
404 Not-found signal rather than a 5xx `DeletionFailed`. -/
theorem handle_delete_returns_bool_only (σ σ₂ : FsDb) (idn id₂ : Nat)
    (h : σ.table.find? (fun r => r.id == idn) ≠ none)
    (h₂ : σ₂.table.find? (fun r => r.id == id₂) = none) :
    (handle_delete_image .deleteFail σ idn).deleted = false
    ∧ (handle_delete_image .deleteFail σ idn).state = σ
    ∧ delete_image_status .deleteFail σ idn = 404
    ∧ (handle_delete_image .dbOk σ₂ id₂).deleted = false
    ∧ delete_image_status .dbOk σ₂ id₂ = 404 := by
  obtain ⟨row, hrow⟩ : ∃ r, σ.table.find? (fun r => r.id == idn) = some r := by
    cases hc : σ.table.find? (fun r => r.id == idn) with
    | none => exact absurd hc h
    | some r => exact ⟨r, rfl⟩
  have hmiss := handle_delete_miss .dbOk σ₂ id₂ h₂
  refine ⟨?_, ?_, ?_, ?_, ?_⟩
  · simp [handle_delete_image, hrow]
  · simp [handle_delete_image, hrow]
  · simp [delete_image_status, handle_delete_image, hrow]
  · rw [hmiss]
  · simp [delete_image_status, hmiss]

/-- Claim C2, witness: the amended theorem applied to the concrete stores
`stateWithRowA` (row id 1 present) and `emptyState` (no row). -/
theorem handle_delete_returns_bool_only_witness :
    (stateWithRowA.table.find? (fun r => r.id == 1) ≠ none)
    ∧ (emptyState.table.find? (fun r => r.id == 1) = none)
    ∧ ((handle_delete_image .deleteFail stateWithRowA 1).deleted = false
       ∧ (handle_delete_image .deleteFail stateWithRowA 1).state = stateWithRowA
       ∧ delete_image_status .deleteFail stateWithRowA 1 = 404
       ∧ (handle_delete_image .dbOk emptyState 1).deleted = false
       ∧ delete_image_status .dbOk emptyState 1 = 404) :=
  ⟨by decide, by decide,
   handle_delete_returns_bool_only stateWithRowA emptyState 1 1 (by decide) (by decide)⟩

/-- Claim C3, counterexample: a failing `SELECT COUNT(*)` on an
established connection escapes `get_images_page` as an exception (the
COUNT runs before the `try` block), so `listPage` does not hold for every
store outcome. -/
theorem get_images_page_count_failure_raises_cex :
    (get_images_page .countFail [] 1 10).result = .error () :=
  rfl

/-- Claim C3, amended: `get_images_page` degrades to the empty listing
(`total=0`, `total_pages=1`, `has_prev=false`, `has_next=false`) only when
the store connection cannot be established; a failing COUNT or a failing
page SELECT on an established connection propagates as an exception
instead of being degraded. -/
theorem get_images_page_degrades_only_on_conn (table : List Row) (page : Int)
    (per_page : Nat) :
    (get_images_page .connNone table page per_page).result = .ok
      { images := [],
        pagination :=
          { current_page := max 1 page, per_page := per_page, total := 0,
            total_pages := 1, has_prev := false, has_next := false } }
    ∧ (get_images_page .countFail table page per_page).result = .error ()
    ∧ (get_images_page .selectFail table page per_page).result = .error () :=
  ⟨rfl, rfl, rfl⟩

/-- Claim C4, counterexample: when the INSERT raises during `save_image`,
the `except` handler only logs and never calls `conn.close()`, so the
operation returns with the acquired connection still open. -/
theorem save_image_leaks_connection_cex :
    (save_image .dbInsertFail emptyState imgJPEG "orig.jpg" "tok" 1 0).connLeaked = true :=
  rfl

/-- Claim C4, amended: `handle_delete_image` releases its connection on
every exit path (its `finally` closes cursor and connection);
`get_images_page` releases it except when the COUNT raises (the exception
fires before the `try`/`finally`, leaking the connection);
`save_image` releases it except when the INSERT/commit raises (the
`except` handler never closes it). -/
theorem connection_release_discipline (envS : SaveEnv) (σ : FsDb) (image : PILImage)
    (orig token : String) (i t : Nat) (envP : PageEnv) (table : List Row) (page : Int)
    (per_page : Nat) (envD : DeleteEnv) (σ₂ : FsDb) (idn : Nat) :
    (save_image envS σ image orig token i t).connLeaked = decide (envS = .dbInsertFail)
    ∧ (get_images_page envP table page per_page).connLeaked = decide (envP = .countFail)
    ∧ (handle_delete_image envD σ₂ idn).connLeaked = false := by
  refine ⟨?_, ?_, ?_⟩
  · cases envS <;> rfl
  · cases envP <;> rfl
  · cases envD <;>
      first
        | rfl
        | (rcases hr : σ₂.table.find? (fun r => r.id == idn) with _ | row <;>
            simp [handle_delete_image, hr])

end ImageHosting

namespace ImageHosting

/-- Claim C5: for every table, requested page and positive page size, the
page fetch clamps the page to a minimum of 1, returns the slice of the
`upload_time`-descending row order at offset `(page-1)*per_page` capped at
`per_page` (empty, not an error, past the end), and the pagination
metadata satisfies `total_pages = max(1, ceil(total/per_page))`,
`has_prev = page > 1`, `has_next = page < total_pages`. -/
theorem get_images_page_pagination_correct (table : List Row) (page : Int)
    (per_page : Nat) (hpp : 0 < per_page) :
    pageFetchContract table page per_page := by
  have h0 : per_page ≠ 0 := Nat.pos_iff_ne_zero.mp hpp
  unfold pageFetchContract
  refine ⟨?_, ?_, ?_, ?_⟩
  · simp only [get_images_page, h0, ne_eq, not_false_iff, if_true,
      ceilDiv_eq_natCeil _ _ hpp]
  · simp [List.length_take, List.length_drop, length_sortByTimeDesc]
  · have hs : List.Sorted byTimeDesc (sortByTimeDesc table) := sorted_sortByTimeDesc table
    have hsub :
        (((sortByTimeDesc table).drop ((max 1 page - 1).toNat * per_page)).take per_page).Sublist
          (sortByTimeDesc table) :=
      (List.take_sublist _ _).trans (List.drop_sublist _ _)
    have hs' := List.Pairwise.sublist hsub hs
    rw [List.Sorted, List.pairwise_map]
    exact hs'
  · intro hle
    have hlen : (sortByTimeDesc table).length ≤ (max 1 page - 1).toNat * per_page := by
      rw [length_sortByTimeDesc]
      exact hle
    have hnil : (sortByTimeDesc table).drop ((max 1 page - 1).toNat * per_page) = [] :=
      List.drop_eq_nil_of_le hlen
    rw [hnil, List.take_nil, List.map_nil]

/-- Claim C5, witness: the contract applied to a 15-row table at page 1 of
size 10 (the spec's worked example: 10 items, `total=15`, `total_pages=2`,
`has_next=true`, `has_prev=false`). -/
theorem get_images_page_pagination_correct_witness :
    0 < 10 ∧ pageFetchContract table15 1 10 :=
  ⟨by decide, get_images_page_pagination_correct table15 1 10 (by decide)⟩

/-- Claim C6: a byte buffer longer than `MAX_FILE_SIZE` fails validation
with the payload-too-large error, whatever the decoder would have done
with the bytes — the size gate is checked first and short-circuits the
decode entirely, so the result does not depend on the decode outcome. -/
theorem validate_bytes_size_gate_first (n : Nat) (d d₂ : DecodeResult)
    (h : n > MAX_FILE_SIZE) :
    validate_bytes { len := n, decode := d } = .error .payloadTooLarge
    ∧ validate_bytes { len := n, decode := d } = validate_bytes { len := n, decode := d₂ } := by
  constructor <;> simp [validate_bytes, h]

/-- Claim C6, witness: one byte over the limit, with bytes that would
decode to a valid JPEG, is still rejected as too large, identically to
undecodable bytes of the same length. -/
theorem validate_bytes_size_gate_first_witness :
    MAX_FILE_SIZE + 1 > MAX_FILE_SIZE
    ∧ (validate_bytes { len := MAX_FILE_SIZE + 1, decode := .decoded imgJPEG }
          = .error .payloadTooLarge
       ∧ validate_bytes { len := MAX_FILE_SIZE + 1, decode := .decoded imgJPEG }
          = validate_bytes { len := MAX_FILE_SIZE + 1, decode := .unidentified }) :=
  ⟨by decide,
   validate_bytes_size_gate_first (MAX_FILE_SIZE + 1) (.decoded imgJPEG) .unidentified
     (by decide)⟩

/-- Claim C7: for bytes under the size limit decoding to an allowed format
(uppercased format tag in `ALLOWED_EXTENSIONS`), ingestion succeeds
whenever the disk write does, and the stored name's extension is exactly
the spec's canonical extension for that format — never the `.img`
fallback. -/
theorem ingest_extension_canonical (env : SaveEnv) (σ : FsDb) (n : Nat)
    (image : PILImage) (orig token : String) (i t : Nat)
    (hn : n ≤ MAX_FILE_SIZE) (henv : env ≠ SaveEnv.diskFail)
    (hfmt : pyUpper (image.format.getD "") ∈ ALLOWED_EXTENSIONS) :
    (handle env σ { len := n, decode := .decoded image } orig token i t).result
      = .ok (token ++ canonicalExtSpec (pyUpper (image.format.getD "")),
             "/images/" ++ (token ++ canonicalExtSpec (pyUpper (image.format.getD ""))))
    ∧ canonicalExtSpec (pyUpper (image.format.getD "")) ≠ ".img"
    ∧ canonicalExtSpec (pyUpper (image.format.getD "")) ∈ [".jpg", ".png", ".gif"] := by
  have hcases : pyUpper (image.format.getD "") = "JPEG"
      ∨ pyUpper (image.format.getD "") = "PNG"
      ∨ pyUpper (image.format.getD "") = "GIF" := by
    simpa [ALLOWED_EXTENSIONS] using hfmt
  have hvb : validate_bytes { len := n, decode := .decoded image } = .ok image := by
    simp [validate_bytes, Nat.not_lt.mpr hn, hfmt]
  have hext : infer_ext_from_format (some (pyUpper (image.format.getD "")))
      = canonicalExtSpec (pyUpper (image.format.getD "")) := by
    rcases hcases with h | h | h <;> rw [h] <;> rfl
  refine ⟨?_, ?_, ?_⟩
  · cases env with
    | diskFail => exact absurd rfl henv
    | dbConnNone => simp [handle, hvb, save_image, hext]
    | dbInsertFail => simp [handle, hvb, save_image, hext]
    | dbOk => simp [handle, hvb, save_image, hext]
  · rcases hcases with h | h | h <;> rw [h] <;> decide
  · rcases hcases with h | h | h <;> rw [h] <;> decide

/-- Claim C7, witness: a GIF whose format attribute is lowercase `gif`,
ingested with a working disk and database, is stored under
`tok.gif` — not `.jpg` and not the `.img` fallback. -/
theorem ingest_extension_canonical_witness :
    (0 ≤ MAX_FILE_SIZE
     ∧ SaveEnv.dbOk ≠ SaveEnv.diskFail
     ∧ pyUpper (imgGIF.format.getD "") ∈ ALLOWED_EXTENSIONS)
    ∧ ((handle .dbOk emptyState { len := 0, decode := .decoded imgGIF } "o.gif" "tok" 1 0).result
        = .ok ("tok" ++ canonicalExtSpec (pyUpper (imgGIF.format.getD "")),
               "/images/" ++ ("tok" ++ canonicalExtSpec (pyUpper (imgGIF.format.getD ""))))
       ∧ canonicalExtSpec (pyUpper (imgGIF.format.getD "")) ≠ ".img"
       ∧ canonicalExtSpec (pyUpper (imgGIF.format.getD "")) ∈ [".jpg", ".png", ".gif"]) :=
  ⟨⟨by decide, by decide, by decide⟩,
   ingest_extension_canonical .dbOk emptyState 0 imgGIF "o.gif" "tok" 1 0
     (by decide) (by decide) (by decide)⟩

/-- Claim C8: deleting an id with no matching row returns the not-found
outcome (`False`, surfaced as 404) and leaves table and filesystem
unchanged, under every environment; and after a successful delete of an
existing id, a second delete of the same id hits the miss path: it
returns the not-found outcome and changes nothing. -/
theorem delete_missing_id_notfound (env env₂ : DeleteEnv) (σ σ₃ : FsDb) (idn idd : Nat)
    (hmiss : σ.table.find? (fun r => r.id == idn) = none)
    (hhit : σ₃.table.find? (fun r => r.id == idd) ≠ none) :
    handle_delete_image env σ idn = { deleted := false, state := σ, connLeaked := false }
    ∧ delete_image_status env σ idn = 404
    ∧ (handle_delete_image .dbOk σ₃ idd).deleted = true
    ∧ handle_delete_image env₂ (handle_delete_image .dbOk σ₃ idd).state idd
        = { deleted := false, state := (handle_delete_image .dbOk σ₃ idd).state,
            connLeaked := false } := by
  obtain ⟨row, hrow⟩ : ∃ r, σ₃.table.find? (fun r => r.id == idd) = some r := by
    cases hc : σ₃.table.find? (fun r => r.id == idd) with
    | none => exact absurd hc hhit
    | some r => exact ⟨r, rfl⟩
  have h1 := handle_delete_miss env σ idn hmiss
  have hstate : (handle_delete_image .dbOk σ₃ idd).state.table
      = σ₃.table.filter (fun r => r.id != idd) := by
    simp [handle_delete_image, hrow]
  refine ⟨h1, by simp [delete_image_status, h1], ?_, ?_⟩
  · simp [handle_delete_image, hrow]
  · apply handle_delete_miss
    rw [hstate]
    exact find_id_filter_eq_none σ₃.table idd

/-- Claim C8, witness: the theorem applied to the empty store (miss) and
to `stateWithRowA` (delete of id 1 followed by a second delete of id 1). -/
theorem delete_missing_id_notfound_witness :
    (emptyState.table.find? (fun r => r.id == 1) = none
     ∧ stateWithRowA.table.find? (fun r => r.id == 1) ≠ none)
    ∧ (handle_delete_image .dbOk emptyState 1
        = { deleted := false, state := emptyState, connLeaked := false }
       ∧ delete_image_status .dbOk emptyState 1 = 404
       ∧ (handle_delete_image .dbOk stateWithRowA 1).deleted = true
       ∧ handle_delete_image .dbOk (handle_delete_image .dbOk stateWithRowA 1).state 1
          = { deleted := false, state := (handle_delete_image .dbOk stateWithRowA 1).state,
              connLeaked := false }) :=
  ⟨⟨by decide, by decide⟩,
   delete_missing_id_notfound .dbOk .dbOk emptyState stateWithRowA 1 1
     (by decide) (by decide)⟩

/-- Claim C9: deleting an id whose row exists but whose file is absent
from disk treats the missing file as already removed: the row is deleted,
the filesystem is untouched, the operation returns `True` and the
controller answers 200. -/
theorem delete_missing_file_succeeds (σ : FsDb) (idn : Nat) (row : Row)
    (hfind : σ.table.find? (fun r => r.id == idn) = some row)
    (hfile : row.filename ∉ σ.files) :
    handle_delete_image .dbOk σ idn
      = { deleted := true,
          state := { files := σ.files, table := σ.table.filter (fun r => r.id != idn) },
          connLeaked := false }
    ∧ delete_image_status .dbOk σ idn = 200 := by
  have hrem : removeFile σ.files row.filename = σ.files := by
    simp [removeFile, hfile]
  constructor
  · simp [handle_delete_image, hfind, hrem]
  · simp [delete_image_status, handle_delete_image, hfind]

/-- Claim C9, witness: the theorem applied to `stateRowNoFile`, which
holds row id 1 whose file `a.jpg` is not on disk. -/
theorem delete_missing_file_succeeds_witness :
    (stateRowNoFile.table.find? (fun r => r.id == 1) = some rowA
     ∧ rowA.filename ∉ stateRowNoFile.files)
    ∧ (handle_delete_image .dbOk stateRowNoFile 1
        = { deleted := true,
            state := { files := stateRowNoFile.files,
                       table := stateRowNoFile.table.filter (fun r => r.id != 1) },
            connLeaked := false }
       ∧ delete_image_status .dbOk stateRowNoFile 1 = 200) :=
  ⟨⟨by decide, by decide⟩,
   delete_missing_file_succeeds stateRowNoFile 1 rowA (by decide) (by decide)⟩

/-- Claim C10: `infer_ext_from_format` is total — every input, including
`None` and the empty string, maps to exactly one of `.jpg`, `.png`,
`.gif`, `.img` — and case-insensitive: uppercasing the argument first
never changes the result (`jpeg` and `JPEG` both map to `.jpg`,
unrecognised or empty input to `.img`). -/
theorem infer_ext_total_case_insensitive (s : Option String) (t : String) :
    infer_ext_from_format s ∈ [".jpg", ".png", ".gif", ".img"]
    ∧ infer_ext_from_format (some t) = infer_ext_from_format (some (pyUpper t))
    ∧ infer_ext_from_format none = ".img"
    ∧ infer_ext_from_format (some "") = ".img"
    ∧ infer_ext_from_format (some "jpeg") = ".jpg"
    ∧ infer_ext_from_format (some "JPEG") = ".jpg" := by
  refine ⟨?_, ?_, rfl, rfl, rfl, rfl⟩
  · simp only [infer_ext_from_format]
    split_ifs <;> simp
  · simp only [infer_ext_from_format, Option.getD_some, pyUpper_idem]

end ImageHosting
